import Mathlib

/-!
Verification development for the ML_Weather data-acquisition scripts.

The repository fetches weather observations from several providers
(`fetch_buoy_data.py`, `fetch_airport_mesonet_data.py`,
`build_pws_observations.py`, `fetch_pws_all_data.py`) and assembles them
into per-source tables with a shared final step: filter rows to a date
window, deduplicate on `(station_id, timestamp)` keeping the first
occurrence, and sort by `(station_id, timestamp)`.

This file shallowly embeds the relevant parts of those scripts:
tables become `List Row`, pandas timestamps become `Option Int`
(microseconds since the epoch, with `none` standing for `NaT`),
and the filter/dedup/sort pipeline becomes explicit list functions.
-/

namespace MLWeather

/-- Microseconds per calendar day; pandas timestamps have microsecond
resolution in all the window arithmetic of these scripts
(`pd.Timedelta(days=1)`, `pd.Timedelta(microseconds=1)`). -/
def usPerDay : Int := 86400000000

/-- `timestamp.date()` for a timestamp counted in microseconds since the
epoch: floor division (toward minus infinity, as in python) by the length
of a day. -/
def dateOf (t : Int) : Int := t.fdiv usPerDay

/-- One row of an assembled observation table.  `timestamp` is `none` when
the source value failed to parse (`NaT`).  `payload` stands for the
provider-specific measurement fields, which the filter/dedup/sort step
carries along unchanged and never inspects. -/
structure Row where
  station_id : String
  timestamp : Option Int
  payload : String
deriving DecidableEq

/-- The key used by `drop_duplicates(subset=["station_id", "timestamp"])`
and `sort_values(["station_id", "timestamp"])`. -/
def rowKey (r : Row) : String × Option Int := (r.station_id, r.timestamp)

/-- Ordering of possibly-missing timestamps as used by
`sort_values`: missing values (`NaT`) sort last (pandas default
`na_position="last"`).  No `NaT` survives the window filter, so in the
assembled tables only the `some`/`some` case is ever exercised. -/
def tsLe : Option Int → Option Int → Prop
  | some a, some b => a ≤ b
  | some _, none => True
  | none, some _ => False
  | none, none => True

instance instTsLeDecidable : (x y : Option Int) → Decidable (tsLe x y)
  | some a, some b => inferInstanceAs (Decidable (a ≤ b))
  | some _, none => .isTrue trivial
  | none, some _ => .isFalse (fun h => h)
  | none, none => .isTrue trivial

theorem tsLe_total : ∀ x y : Option Int, tsLe x y ∨ tsLe y x
  | some a, some b => le_total a b
  | some _, none => Or.inl trivial
  | none, some _ => Or.inr trivial
  | none, none => Or.inl trivial

theorem tsLe_trans : ∀ {x y z : Option Int}, tsLe x y → tsLe y z → tsLe x z := by
  intro x y z h1 h2
  cases x <;> cases y <;> cases z <;> simp_all [tsLe]
  omega

/-- Lexicographic comparison on `(station_id, timestamp)` realized by
`sort_values(["station_id", "timestamp"])`. -/
def rowLe (a b : Row) : Prop :=
  a.station_id < b.station_id ∨
    (a.station_id = b.station_id ∧ tsLe a.timestamp b.timestamp)

instance instRowLeDecidable : DecidableRel rowLe := fun a b =>
  inferInstanceAs (Decidable (a.station_id < b.station_id ∨
    (a.station_id = b.station_id ∧ tsLe a.timestamp b.timestamp)))

instance instRowLeTotal : IsTotal Row rowLe := by
  constructor
  intro a b
  unfold rowLe
  rcases lt_trichotomy a.station_id b.station_id with h | h | h
  · exact Or.inl (Or.inl h)
  · rcases tsLe_total a.timestamp b.timestamp with ht | ht
    · exact Or.inl (Or.inr ⟨h, ht⟩)
    · exact Or.inr (Or.inr ⟨h.symm, ht⟩)
  · exact Or.inr (Or.inl h)

instance instRowLeTrans : IsTrans Row rowLe := by
  constructor
  intro a b c h1 h2
  unfold rowLe at *
  rcases h1 with h1 | ⟨he1, ht1⟩
  · rcases h2 with h2 | ⟨he2, ht2⟩
    · exact Or.inl (lt_trans h1 h2)
    · exact Or.inl (he2 ▸ h1)
  · rcases h2 with h2 | ⟨he2, ht2⟩
    · exact Or.inl (by rw [he1]; exact h2)
    · exact Or.inr ⟨he1.trans he2, tsLe_trans ht1 ht2⟩

/-- `sort_values(["station_id", "timestamp"])`.  Modeled with insertion
sort; after deduplication the keys are pairwise distinct, so any
comparison sort produces this same, unique, key-ordered result. -/
def sortRows (rows : List Row) : List Row := List.insertionSort rowLe rows

/-- Worker for `drop_duplicates(subset=["station_id", "timestamp"])`
(pandas default `keep="first"`): walk the rows in order, keeping a row
only when its key has not been seen before. -/
def dedupAux : List (String × Option Int) → List Row → List Row
  | _, [] => []
  | seen, r :: rs =>
    if rowKey r ∈ seen then dedupAux seen rs
    else r :: dedupAux (rowKey r :: seen) rs

/-- `drop_duplicates(subset=["station_id", "timestamp"])`, keeping the
first occurrence of each key. -/
def dedupRows (rows : List Row) : List Row := dedupAux [] rows

/-- The shared final assembly step of every fetcher (the spec's "Window
Filter & Deduplicator"): filter by a row predicate, drop duplicate
`(station_id, timestamp)` keys keeping the first occurrence, and sort by
`(station_id, timestamp)`. -/
def windowStep (p : Row → Bool) (rows : List Row) : List Row :=
  sortRows (dedupRows (rows.filter p))

/-- Final filter of `fetch_buoy_data`: `start_ts = pd.to_datetime(START_DATE)`
and `end_ts = pd.to_datetime(END_DATE)` are both midnights, and the filter
keeps rows with `timestamp.notna() & (timestamp >= start_ts) & (timestamp <= end_ts)`. -/
def buoyFinalPred (s e : Int) (r : Row) : Bool :=
  match r.timestamp with
  | some t => decide (s * usPerDay ≤ t) && decide (t ≤ e * usPerDay)
  | none => false

/-- Final filter of `fetch_airport_data` (same bounds as the per-station
filter): `start_ts = Timestamp(START_DATE)`, `end_ts = Timestamp(END_DATE)
+ Timedelta(days=1) - Timedelta(microseconds=1)`, inclusive on both ends. -/
def airportFinalPred (s e : Int) (r : Row) : Bool :=
  match r.timestamp with
  | some t => decide (s * usPerDay ≤ t) && decide (t ≤ (e + 1) * usPerDay - 1)
  | none => false

/-- `min(station_windows.values())` in `build_combined_pws_observations`
(python `min` over a nonempty dict of per-station start dates; the dict is
nonempty whenever the function reaches the filter). -/
def minStartD : List (String × Int) → Int
  | [] => 0
  | w :: ws => ws.foldl (fun acc p => min acc p.2) w.2

/-- Naive-timestamp branch of the final filter in
`build_combined_pws_observations`: when the combined `timestamp` column is
timezone-naive the code keeps rows with
`timestamp >= Timestamp(min_start)` and
`timestamp <= Timestamp(end_date) + Timedelta(days=1)` — note the upper
bound is midnight of `end_date + 1`, inclusive. -/
def pwsNaivePred (minS e : Int) (r : Row) : Bool :=
  match r.timestamp with
  | some t => decide (minS * usPerDay ≤ t) && decide (t ≤ (e + 1) * usPerDay)
  | none => false

/-- Timezone-aware branch of the final filter in
`build_combined_pws_observations`: bounds `Timestamp(min_start)` and
`Timestamp(end_date) + Timedelta(days=1) - Timedelta(microseconds=1)`,
both localized to UTC. -/
def pwsAwarePred (minS e : Int) (r : Row) : Bool :=
  match r.timestamp with
  | some t => decide (minS * usPerDay ≤ t) && decide (t ≤ (e + 1) * usPerDay - 1)
  | none => false

/-- Final assembly of `fetch_buoy_data` (lines 300-313): re-filter the
concatenated frames to the window, deduplicate on
`(station_id, timestamp)` and sort, with `START_DATE = s` and
`END_DATE = e` given as day numbers. -/
def fetch_buoy_data_assemble (s e : Int) (rows : List Row) : List Row :=
  windowStep (buoyFinalPred s e) rows

/-- Final assembly of `fetch_airport_data` (lines 202-220). -/
def fetch_airport_data_assemble (s e : Int) (rows : List Row) : List Row :=
  windowStep (airportFinalPred s e) rows

/-- Final assembly of `build_combined_pws_observations` (lines 192-213)
when the concatenated `timestamp` column is timezone-naive. -/
def build_combined_pws_naive (windows : List (String × Int)) (e : Int)
    (rows : List Row) : List Row :=
  windowStep (pwsNaivePred (minStartD windows) e) rows

/-- Final assembly of `build_combined_pws_observations` (lines 192-213)
when the concatenated `timestamp` column is timezone-aware (UTC). -/
def build_combined_pws_aware (windows : List (String × Int)) (e : Int)
    (rows : List Row) : List Row :=
  windowStep (pwsAwarePred (minStartD windows) e) rows

theorem mem_of_mem_dedupAux {x : Row} :
    ∀ {seen : List (String × Option Int)} {l : List Row},
      x ∈ dedupAux seen l → x ∈ l := by
  intro seen l
  induction l generalizing seen with
  | nil => intro h; exact absurd h (List.not_mem_nil x)
  | cons r rs ih =>
    intro h
    unfold dedupAux at h
    by_cases hk : rowKey r ∈ seen
    · rw [if_pos hk] at h
      exact List.mem_cons_of_mem r (ih h)
    · rw [if_neg hk] at h
      rcases List.mem_cons.mp h with h | h
      · exact h ▸ List.mem_cons_self r rs
      · exact List.mem_cons_of_mem r (ih h)

theorem key_not_mem_of_mem_dedupAux {x : Row} :
    ∀ {seen : List (String × Option Int)} {l : List Row},
      x ∈ dedupAux seen l → rowKey x ∉ seen := by
  intro seen l
  induction l generalizing seen with
  | nil => intro h; exact absurd h (List.not_mem_nil x)
  | cons r rs ih =>
    intro h
    unfold dedupAux at h
    by_cases hk : rowKey r ∈ seen
    · rw [if_pos hk] at h
      exact ih h
    · rw [if_neg hk] at h
      rcases List.mem_cons.mp h with h | h
      · exact h ▸ hk
      · intro hmem
        exact ih h (List.mem_cons_of_mem _ hmem)

theorem pairwise_key_dedupAux :
    ∀ (seen : List (String × Option Int)) (l : List Row),
      (dedupAux seen l).Pairwise (fun a b => rowKey a ≠ rowKey b) := by
  intro seen l
  induction l generalizing seen with
  | nil => exact List.Pairwise.nil
  | cons r rs ih =>
    unfold dedupAux
    by_cases hk : rowKey r ∈ seen
    · rw [if_pos hk]; exact ih seen
    · rw [if_neg hk]
      refine List.Pairwise.cons ?_ (ih (rowKey r :: seen))
      intro b hb
      have := key_not_mem_of_mem_dedupAux hb
      intro hEq
      exact this (hEq ▸ List.mem_cons_self _ _)

theorem dedupAux_eq_self :
    ∀ (seen : List (String × Option Int)) (l : List Row),
      l.Pairwise (fun a b => rowKey a ≠ rowKey b) →
      (∀ x ∈ l, rowKey x ∉ seen) →
      dedupAux seen l = l := by
  intro seen l
  induction l generalizing seen with
  | nil => intro _ _; rfl
  | cons r rs ih =>
    intro hpw hseen
    unfold dedupAux
    rw [if_neg (hseen r (List.mem_cons_self r rs))]
    congr 1
    refine ih _ hpw.of_cons ?_
    intro x hx
    intro hmem
    rcases List.mem_cons.mp hmem with h | h
    · exact (List.pairwise_cons.mp hpw).1 x hx h.symm
    · exact hseen x (List.mem_cons_of_mem r hx) h

theorem mem_windowStep {x : Row} {p : Row → Bool} {rows : List Row} :
    x ∈ windowStep p rows → x ∈ rows ∧ p x = true := by
  intro h
  unfold windowStep sortRows at h
  have h1 : x ∈ dedupRows (rows.filter p) := (List.mem_insertionSort rowLe).mp h
  have h2 : x ∈ rows.filter p := mem_of_mem_dedupAux h1
  exact List.mem_filter.mp h2

theorem pairwise_key_windowStep (p : Row → Bool) (rows : List Row) :
    (windowStep p rows).Pairwise (fun a b => rowKey a ≠ rowKey b) := by
  unfold windowStep sortRows
  have hperm := List.perm_insertionSort rowLe (dedupRows (rows.filter p))
  have hsymm : ∀ {a b : Row}, rowKey a ≠ rowKey b → rowKey b ≠ rowKey a :=
    fun h => Ne.symm h
  exact (List.Perm.pairwise_iff hsymm hperm).mpr (pairwise_key_dedupAux [] _)

theorem sorted_windowStep (p : Row → Bool) (rows : List Row) :
    (windowStep p rows).Sorted rowLe :=
  List.sorted_insertionSort rowLe _

theorem windowStep_idem (p : Row → Bool) (rows : List Row) :
    windowStep p (windowStep p rows) = windowStep p rows := by
  have hfilter : (windowStep p rows).filter p = windowStep p rows :=
    List.filter_eq_self.mpr (fun a ha => (mem_windowStep ha).2)
  have hdedup : dedupRows (windowStep p rows) = windowStep p rows :=
    dedupAux_eq_self [] _ (pairwise_key_windowStep p rows)
      (fun x _ => List.not_mem_nil (rowKey x))
  have hsort : sortRows (windowStep p rows) = windowStep p rows :=
    List.Sorted.insertionSort_eq (sorted_windowStep p rows)
  show sortRows (dedupRows ((windowStep p rows).filter p)) = windowStep p rows
  rw [hfilter, hdedup, hsort]

theorem le_dateOf_iff {s t : Int} : s ≤ dateOf t ↔ s * usPerDay ≤ t := by
  unfold dateOf
  rw [Int.fdiv_eq_ediv t (show (0:Int) ≤ usPerDay by decide)]
  exact Int.le_ediv_iff_mul_le (show (0:Int) < usPerDay by decide)

theorem dateOf_le_iff {e t : Int} : dateOf t ≤ e ↔ t ≤ (e + 1) * usPerDay - 1 := by
  unfold dateOf
  rw [Int.fdiv_eq_ediv t (show (0:Int) ≤ usPerDay by decide)]
  constructor
  · intro h
    have h2 : t / usPerDay < e + 1 := by omega
    have h3 := (Int.ediv_lt_iff_lt_mul (show (0:Int) < usPerDay by decide)).mp h2
    omega
  · intro h
    have h2 : t < (e + 1) * usPerDay := by omega
    have h3 := (Int.ediv_lt_iff_lt_mul (show (0:Int) < usPerDay by decide)).mpr h2
    omega

theorem dateOf_le_of_le {e t : Int} (h : t ≤ e * usPerDay) : dateOf t ≤ e := by
  apply dateOf_le_iff.mpr
  have hexp : (e + 1) * usPerDay = e * usPerDay + usPerDay := by ring
  have husp : (1:Int) ≤ usPerDay := by decide
  linarith

theorem pred_bounds {r : Row} {lo hi : Int}
    (hp : (match r.timestamp with
           | some t => decide (lo ≤ t) && decide (t ≤ hi)
           | none => false) = true) :
    ∃ t, r.timestamp = some t ∧ lo ≤ t ∧ t ≤ hi := by
  cases ht : r.timestamp with
  | none => rw [ht] at hp; cases hp
  | some t =>
    rw [ht] at hp
    simp only [Bool.and_eq_true, decide_eq_true_eq] at hp
    exact ⟨t, rfl, hp.1, hp.2⟩

/-- C6 (confirmed): the Window Filter & Deduplicator step — drop rows
failing the window predicate (which rejects null timestamps), deduplicate
on `(station_id, timestamp)` keeping the first occurrence, sort by
`(station_id, timestamp)` — is idempotent: applying the step to its own
output returns that output unchanged, for every window predicate and every
input table. -/
theorem claim_C6_theorem :
    ∀ (p : Row → Bool) (rows : List Row),
      windowStep p (windowStep p rows) = windowStep p rows :=
  windowStep_idem

/-- C2 (confirmed): in the final assembled output table of every fetcher
(buoy, airport, and both branches of the combined PWS builder), the pair
`(station_id, timestamp)` is unique: no two distinct rows share both the
same station id and the same timestamp. -/
theorem claim_C2_theorem :
    ∀ (s e : Int) (rows : List Row) (windows : List (String × Int)),
      (fetch_buoy_data_assemble s e rows).Pairwise (fun a b => rowKey a ≠ rowKey b) ∧
      (fetch_airport_data_assemble s e rows).Pairwise (fun a b => rowKey a ≠ rowKey b) ∧
      (build_combined_pws_naive windows e rows).Pairwise (fun a b => rowKey a ≠ rowKey b) ∧
      (build_combined_pws_aware windows e rows).Pairwise (fun a b => rowKey a ≠ rowKey b) :=
  fun _ _ _ _ =>
    ⟨pairwise_key_windowStep _ _, pairwise_key_windowStep _ _,
     pairwise_key_windowStep _ _, pairwise_key_windowStep _ _⟩

/-- C1 (corrected) counterexample: the claim "for every row in the final
assembled output table, `start_date <= timestamp.date() <= end_date`, and
the window filter retains exactly the rows in
`[start_date, end_date + 1 day)`" is false.  With `start_date = end_date
= day 0`, the naive branch of `build_combined_pws_observations` retains a
row timestamped exactly at midnight of day 1 (= `end_date + 1 day`, its
upper bound being inclusive), and that row's calendar date is day 1,
outside the configured window. -/
theorem claim_C1_counterexample :
    build_combined_pws_naive [("KORMCMIN127", 0)] 0
        [⟨"KORMCMIN127", some 86400000000, ""⟩]
      = [⟨"KORMCMIN127", some 86400000000, ""⟩] ∧
    dateOf 86400000000 = 1 ∧ ¬ dateOf 86400000000 ≤ 0 := by
  refine ⟨by decide, by decide, by decide⟩

/-- C1 (corrected), amended: the buoy final filter retains exactly rows
with `start <= ts <= end_date 00:00` (so its rows satisfy the date window,
but rows later in `end_date`'s day are dropped although they lie in
`[start_date, end_date + 1 day)` — last conjunct but one); the airport and
timezone-aware PWS filters retain exactly `[start, end_date + 1 day)` at
microsecond resolution and their rows satisfy the date window; the naive
PWS branch's upper bound is midnight of `end_date + 1` inclusive, so its
rows are only guaranteed `min_start <= ts.date() <= end_date + 1`, the
boundary row being retained (last conjunct). -/
theorem claim_C1_theorem :
    (∀ (s e : Int) (rows : List Row) (r : Row),
        r ∈ fetch_buoy_data_assemble s e rows →
        ∃ t, r.timestamp = some t ∧ s * usPerDay ≤ t ∧ t ≤ e * usPerDay ∧
          s ≤ dateOf t ∧ dateOf t ≤ e) ∧
    (∀ (s e : Int) (rows : List Row) (r : Row),
        r ∈ fetch_airport_data_assemble s e rows →
        ∃ t, r.timestamp = some t ∧ s * usPerDay ≤ t ∧
          t ≤ (e + 1) * usPerDay - 1 ∧ s ≤ dateOf t ∧ dateOf t ≤ e) ∧
    (∀ (windows : List (String × Int)) (e : Int) (rows : List Row) (r : Row),
        r ∈ build_combined_pws_aware windows e rows →
        ∃ t, r.timestamp = some t ∧ minStartD windows * usPerDay ≤ t ∧
          t ≤ (e + 1) * usPerDay - 1 ∧ minStartD windows ≤ dateOf t ∧ dateOf t ≤ e) ∧
    (∀ (windows : List (String × Int)) (e : Int) (rows : List Row) (r : Row),
        r ∈ build_combined_pws_naive windows e rows →
        ∃ t, r.timestamp = some t ∧ minStartD windows * usPerDay ≤ t ∧
          t ≤ (e + 1) * usPerDay ∧ minStartD windows ≤ dateOf t ∧ dateOf t ≤ e + 1) ∧
    fetch_buoy_data_assemble 0 0 [⟨"46050", some 1, ""⟩] = [] ∧
    build_combined_pws_naive [("KORMCMIN127", 0)] 0
        [⟨"KORMCMIN127", some 86400000000, ""⟩]
      = [⟨"KORMCMIN127", some 86400000000, ""⟩] := by
  refine ⟨?_, ?_, ?_, ?_, by decide, by decide⟩
  · intro s e rows r hmem
    obtain ⟨_, hp⟩ := mem_windowStep hmem
    unfold buoyFinalPred at hp
    obtain ⟨t, ht, h1, h2⟩ := pred_bounds hp
    exact ⟨t, ht, h1, h2, le_dateOf_iff.mpr h1, dateOf_le_of_le h2⟩
  · intro s e rows r hmem
    obtain ⟨_, hp⟩ := mem_windowStep hmem
    unfold airportFinalPred at hp
    obtain ⟨t, ht, h1, h2⟩ := pred_bounds hp
    exact ⟨t, ht, h1, h2, le_dateOf_iff.mpr h1, dateOf_le_iff.mpr h2⟩
  · intro windows e rows r hmem
    obtain ⟨_, hp⟩ := mem_windowStep hmem
    unfold pwsAwarePred at hp
    obtain ⟨t, ht, h1, h2⟩ := pred_bounds hp
    exact ⟨t, ht, h1, h2, le_dateOf_iff.mpr h1, dateOf_le_iff.mpr h2⟩
  · intro windows e rows r hmem
    obtain ⟨_, hp⟩ := mem_windowStep hmem
    unfold pwsNaivePred at hp
    obtain ⟨t, ht, h1, h2⟩ := pred_bounds hp
    exact ⟨t, ht, h1, h2, le_dateOf_iff.mpr h1, dateOf_le_of_le h2⟩

/-- C1 witness: the amended theorem's first part applied at a concrete
buoy table containing one in-window row. -/
theorem claim_C1_witness :
    ∃ t, (Row.mk "46050" (some 0) "").timestamp = some t ∧
      0 * usPerDay ≤ t ∧ t ≤ 0 * usPerDay ∧ 0 ≤ dateOf t ∧ dateOf t ≤ 0 :=
  claim_C1_theorem.1 0 0 [⟨"46050", some 0, ""⟩] ⟨"46050", some 0, ""⟩ (by decide)

/-- C9 (confirmed): the final window filter of
`build_combined_pws_observations` uses the minimum start date across all
configured stations as the lower bound for every row regardless of which
station produced it — the predicate depends only on the row's timestamp
(first conjunct), and a row of station `KORMCMIN133` (whose own window
starts at day 10) timestamped at day 5, at or after the earliest start
(day 0), is retained in the final table (last conjunct); per-station
windows are not enforced by this filter. -/
theorem claim_C9_theorem :
    (∀ (windows : List (String × Int)) (e : Int) (r : Row),
        pwsNaivePred (minStartD windows) e r = true ↔
          ∃ t, r.timestamp = some t ∧ minStartD windows * usPerDay ≤ t ∧
            t ≤ (e + 1) * usPerDay) ∧
    minStartD [("KORMCMIN127", 0), ("KORMCMIN133", 10)] = 0 ∧
    build_combined_pws_naive [("KORMCMIN127", 0), ("KORMCMIN133", 10)] 20
        [⟨"KORMCMIN133", some (5 * 86400000000), ""⟩]
      = [⟨"KORMCMIN133", some (5 * 86400000000), ""⟩] := by
  refine ⟨?_, by decide, by decide⟩
  intro windows e r
  constructor
  · intro hp
    unfold pwsNaivePred at hp
    exact pred_bounds hp
  · rintro ⟨t, ht, h1, h2⟩
    unfold pwsNaivePred
    rw [ht]
    simp only [Bool.and_eq_true, decide_eq_true_eq]
    exact ⟨h1, h2⟩

/-- One parsed row of the Mesonet ASOS CSV response in
`fetch_asos_for_station`: `station` is this row's value in the provider's
`station` column (meaningful when that column is present) and `valid` is
the row's `valid` field parsed as a UTC timestamp (`none` models `NaT`
from `errors="coerce"`). -/
structure AsosRaw where
  station : String
  valid : Option Int
deriving DecidableEq

/-- Row construction of `fetch_asos_for_station` (lines 137-165): the
output `station_id` is the response's `station` column value (stringified
by `astype(str)`) when that column is present, and the requested station
id only otherwise; then the global window filter is applied (bounds
`Timestamp(START_DATE)` to `Timestamp(END_DATE) + 1 day - 1 microsecond`,
localized UTC, same as the final airport filter). -/
def fetch_asos_for_station_rows (hasStationCol : Bool) (reqId : String)
    (raws : List AsosRaw) (s e : Int) : List Row :=
  (raws.map (fun w =>
    Row.mk (if hasStationCol then w.station else reqId) w.valid "")).filter
    (airportFinalPred s e)

/-- C10 (confirmed): whenever the ASOS response has a `station` column,
every output row's `station_id` comes from that column of the response
rather than from the requested identifier; the requested identifier is
used only when the column is absent. -/
theorem claim_C10_theorem :
    (∀ (reqId : String) (raws : List AsosRaw) (s e : Int) (r : Row),
        r ∈ fetch_asos_for_station_rows true reqId raws s e →
        ∃ w ∈ raws, r.station_id = w.station ∧ r.timestamp = w.valid) ∧
    (∀ (reqId : String) (raws : List AsosRaw) (s e : Int) (r : Row),
        r ∈ fetch_asos_for_station_rows false reqId raws s e →
        r.station_id = reqId) := by
  constructor
  · intro reqId raws s e r hmem
    unfold fetch_asos_for_station_rows at hmem
    obtain ⟨w, hw, hEq⟩ := List.mem_map.mp (List.mem_filter.mp hmem).1
    subst hEq
    exact ⟨w, hw, rfl, rfl⟩
  · intro reqId raws s e r hmem
    unfold fetch_asos_for_station_rows at hmem
    obtain ⟨w, hw, hEq⟩ := List.mem_map.mp (List.mem_filter.mp hmem).1
    subst hEq
    rfl

/-- C10 witness: the theorem's first part applied at a concrete response
table whose `station` column reports `KEUG` while the caller requested
`KMMV`. -/
theorem claim_C10_witness :
    ∃ w ∈ [AsosRaw.mk "KEUG" (some 0)],
      (Row.mk "KEUG" (some 0) "").station_id = w.station ∧
      (Row.mk "KEUG" (some 0) "").timestamp = w.valid :=
  claim_C10_theorem.1 "KMMV" [⟨"KEUG", some 0⟩] 0 0 ⟨"KEUG", some 0, ""⟩
    (by decide)

/-- Update of the `seen` dict in the header-deduplication loop of
`fetch_ndbc_realtime` (lines 205-214); the python dict is modeled as a
function `String → Option Nat`. -/
def bumpSeen (seen : String → Option Nat) (n : String) (k : Nat) :
    String → Option Nat :=
  fun m => if m = n then some k else seen m

/-- The header-deduplication loop of `fetch_ndbc_realtime`: a repeated
name gets the suffix `_<repeat index>` (the dict stores, per name, the
number of repeats seen so far: first occurrence stores `0`, the k-th
repeat increments to `k` and appends `_k`). -/
def dedupColsGo (seen : String → Option Nat) : List String → List String
  | [] => []
  | n :: rest =>
    match seen n with
    | some k =>
      (n ++ "_" ++ toString (k + 1)) :: dedupColsGo (bumpSeen seen n (k + 1)) rest
    | none => n :: dedupColsGo (bumpSeen seen n 0) rest

/-- Column-name deduplication of `fetch_ndbc_realtime` starting from the
empty `seen` dict. -/
def dedupCols (names : List String) : List String :=
  dedupColsGo (fun _ => none) names

/-- Number of occurrences already recorded in the `seen` dict for a name:
a stored value `k` means `k + 1` occurrences so far. -/
def occOf (seen : String → Option Nat) (n : String) : Nat :=
  match seen n with
  | none => 0
  | some k => k + 1

/-- The normalized name produced for the `c`-th occurrence (0-based) of a
raw name: the name itself the first time, `name_c` afterwards. -/
def suffixed (n : String) (c : Nat) : String :=
  if c = 0 then n else n ++ "_" ++ toString c

theorem occOf_bumpSeen (seen : String → Option Nat) (n m : String) :
    occOf (bumpSeen seen n (occOf seen n)) m =
      occOf seen m + if m = n then 1 else 0 := by
  by_cases hm : m = n
  · subst hm
    simp [occOf, bumpSeen]
  · simp [occOf, bumpSeen, hm]

theorem dedupColsGo_get :
    ∀ (names : List String) (seen : String → Option Nat) (i : Nat)
      (h : i < names.length) (h2 : i < (dedupColsGo seen names).length),
      (dedupColsGo seen names).get ⟨i, h2⟩ =
        suffixed (names.get ⟨i, h⟩)
          (occOf seen (names.get ⟨i, h⟩) +
            (names.take i).count (names.get ⟨i, h⟩)) := by
  intro names
  induction names with
  | nil => intro seen i h h2; exact absurd h (Nat.not_lt_zero i)
  | cons n rest ih =>
    intro seen i h h2
    cases i with
    | zero =>
      cases hseen : seen n with
      | none => simp [dedupColsGo, hseen, suffixed, occOf]
      | some k => simp [dedupColsGo, hseen, suffixed, occOf]
    | succ i =>
      have hlt : i < rest.length := Nat.lt_of_succ_lt_succ h
      cases hseen : seen n with
      | none =>
        have h2' : i < (dedupColsGo (bumpSeen seen n 0) rest).length := by
          have := h2
          simp [dedupColsGo, hseen] at this
          omega
        have hstep : (dedupColsGo seen (n :: rest)).get ⟨i + 1, h2⟩ =
            (dedupColsGo (bumpSeen seen n 0) rest).get ⟨i, h2'⟩ := by
          simp [dedupColsGo, hseen]
        rw [hstep, ih (bumpSeen seen n 0) i hlt h2']
        have hget : (n :: rest).get ⟨i + 1, h⟩ = rest.get ⟨i, hlt⟩ := rfl
        rw [hget]
        have hb : bumpSeen seen n 0 = bumpSeen seen n (occOf seen n) := by
          simp [occOf, hseen]
        have htake : (n :: rest).take (i + 1) = n :: rest.take i := rfl
        rw [hb, occOf_bumpSeen, htake, List.count_cons]
        congr 1
        by_cases hm : rest.get ⟨i, hlt⟩ = n
        · rw [if_pos hm, if_pos (by rw [hm]; exact beq_self_eq_true n)]
          omega
        · rw [if_neg hm, if_neg (by simp only [beq_iff_eq]; exact fun hh => hm hh.symm)]
          omega
      | some k =>
        have h2' : i < (dedupColsGo (bumpSeen seen n (k + 1)) rest).length := by
          have := h2
          simp [dedupColsGo, hseen] at this
          omega
        have hstep : (dedupColsGo seen (n :: rest)).get ⟨i + 1, h2⟩ =
            (dedupColsGo (bumpSeen seen n (k + 1)) rest).get ⟨i, h2'⟩ := by
          simp [dedupColsGo, hseen]
        rw [hstep, ih (bumpSeen seen n (k + 1)) i hlt h2']
        have hget : (n :: rest).get ⟨i + 1, h⟩ = rest.get ⟨i, hlt⟩ := rfl
        rw [hget]
        have hb : bumpSeen seen n (k + 1) = bumpSeen seen n (occOf seen n) := by
          simp [occOf, hseen]
        have htake : (n :: rest).take (i + 1) = n :: rest.take i := rfl
        rw [hb, occOf_bumpSeen, htake, List.count_cons]
        congr 1
        by_cases hm : rest.get ⟨i, hlt⟩ = n
        · rw [if_pos hm, if_pos (by rw [hm]; exact beq_self_eq_true n)]
          omega
        · rw [if_neg hm, if_neg (by simp only [beq_iff_eq]; exact fun hh => hm hh.symm)]
          omega

/-- C5 (confirmed): raw tabular header names are deduplicated by appending
a numeric suffix to each repeat before the table is constructed — the
`i`-th output name is the raw name itself if it has not occurred among the
first `i` names and `name_c` when it occurred `c` times before — and in
particular `["WDIR", "WSPD", "WDIR"]` normalizes to
`["WDIR", "WSPD", "WDIR_1"]`. -/
theorem claim_C5_theorem :
    dedupCols ["WDIR", "WSPD", "WDIR"] = ["WDIR", "WSPD", "WDIR_1"] ∧
    (∀ (names : List String) (i : Nat) (h : i < names.length)
        (h2 : i < (dedupCols names).length),
        (dedupCols names).get ⟨i, h2⟩ =
          suffixed (names.get ⟨i, h⟩)
            ((names.take i).count (names.get ⟨i, h⟩))) := by
  constructor
  · decide
  · intro names i h h2
    have hmain := dedupColsGo_get names (fun _ => none) i h h2
    simpa [occOf] using hmain

/-- C5 witness: the characterization applied at the header
`["WDIR", "WSPD", "WDIR"]`, index 2 (the repeated `WDIR`). -/
theorem claim_C5_witness :
    (dedupCols ["WDIR", "WSPD", "WDIR"]).get ⟨2, by decide⟩ =
      suffixed "WDIR" 1 :=
  claim_C5_theorem.2 ["WDIR", "WSPD", "WDIR"] 2 (by decide) (by decide)

/-- Gregorian leap-year rule (as used by pandas datetime validation). -/
def isLeapYear (y : Int) : Bool :=
  (decide (y % 4 = 0) && decide (y % 100 ≠ 0)) || decide (y % 400 = 0)

/-- Days in a month of the Gregorian calendar. -/
def daysInMonth (y m : Int) : Int :=
  if m = 2 then (if isLeapYear y then 29 else 28)
  else if m = 4 ∨ m = 6 ∨ m = 9 ∨ m = 11 then 30
  else 31

/-- A combined timestamp, kept as its calendar components so that the year
of the result is directly observable. -/
structure DT where
  year : Int
  month : Int
  day : Int
  hour : Int
  minute : Int
deriving DecidableEq

def pandasMinYear : Int := 1678

def pandasMaxYear : Int := 2261

/-- Models `pd.to_datetime(<year/month/day/hour/minute columns>,
errors="coerce")`: combine the component fields into one timestamp,
producing `NaT` (`none`) when the components do not form a valid datetime
or the result lies outside the representable `datetime64[ns]` range.  The
pandas nanosecond range is 1677-09-21 through 2262-04-11; we use the
conservative whole-year bounds 1678..2261, far from every input relevant
to the claims (year 24 is far below, year 2024 far inside). -/
def toDatetime (y m d hh mi : Int) : Option DT :=
  if pandasMinYear ≤ y ∧ y ≤ pandasMaxYear ∧ 1 ≤ m ∧ m ≤ 12 ∧ 1 ≤ d ∧
      d ≤ daysInMonth y m ∧ 0 ≤ hh ∧ hh < 24 ∧ 0 ≤ mi ∧ mi < 60 then
    some ⟨y, m, d, hh, mi⟩
  else none

/-- Timestamp assembly of `fetch_ndbc_year` (historical archives, lines
129-143): per the source comment, "We just treat whatever is in YY as the
year value" — the components are passed to `to_datetime` unchanged. -/
def fetch_ndbc_year_timestamp (yy mm dd hh mi : Int) : Option DT :=
  toDatetime yy mm dd hh mi

/-- Timestamp assembly of `fetch_ndbc_realtime` (lines 229-244):
`df["YYYY"] = 2000 + df["YY"].astype(int)` unconditionally, then
`to_datetime` on the component columns. -/
def fetch_ndbc_realtime_timestamp (yy mm dd hh mi : Int) : Option DT :=
  toDatetime (2000 + yy) mm dd hh mi

/-- C4 (corrected) counterexample: the claim says the normalizer adds 2000
to any 2-digit year before combining, and in particular that a record with
year 24 and (03, 15, 12, 00) normalizes to a year-2024 timestamp.  In the
historical normalizer `fetch_ndbc_year` no 2000 is added: that record's
year stays 24, which is outside the representable datetime range, so its
timestamp is null — not a year-2024 timestamp. -/
theorem claim_C4_counterexample :
    fetch_ndbc_year_timestamp 24 3 15 12 0 = none ∧
    (fetch_ndbc_year_timestamp 24 3 15 12 0).map DT.year ≠ some 2024 :=
  ⟨by decide, by decide⟩

/-- C4 (corrected), amended: only the realtime normalizer adds 2000 to the
year component, and it does so unconditionally (first conjunct); the
spec's example holds there (second conjunct).  The historical normalizer
uses the year value as-is (last conjunct), so a 2-digit year makes the
combined timestamp null and the row is later dropped (third conjunct). -/
theorem claim_C4_theorem :
    (∀ yy mm dd hh mi dt,
        fetch_ndbc_realtime_timestamp yy mm dd hh mi = some dt →
        dt.year = 2000 + yy) ∧
    fetch_ndbc_realtime_timestamp 24 3 15 12 0 = some ⟨2024, 3, 15, 12, 0⟩ ∧
    (∀ yy mm dd hh mi, 0 ≤ yy → yy ≤ 99 →
        fetch_ndbc_year_timestamp yy mm dd hh mi = none) ∧
    (∀ yy mm dd hh mi dt,
        fetch_ndbc_year_timestamp yy mm dd hh mi = some dt →
        dt.year = yy) := by
  refine ⟨?_, by decide, ?_, ?_⟩
  · intro yy mm dd hh mi dt hdt
    unfold fetch_ndbc_realtime_timestamp toDatetime at hdt
    split at hdt
    · injection hdt with hEq
      subst hEq
      rfl
    · exact absurd hdt (by simp)
  · intro yy mm dd hh mi h0 h99
    unfold fetch_ndbc_year_timestamp toDatetime
    split
    · rename_i hcond
      exfalso
      have h1 := hcond.1
      have he : pandasMinYear = 1678 := rfl
      omega
    · rfl
  · intro yy mm dd hh mi dt hdt
    unfold fetch_ndbc_year_timestamp toDatetime at hdt
    split at hdt
    · injection hdt with hEq
      subst hEq
      rfl
    · exact absurd hdt (by simp)

/-- C4 witness: the amended theorem's third part applied at the spec's
example record (year 24, month 3, day 15, 12:00). -/
theorem claim_C4_witness :
    fetch_ndbc_year_timestamp 24 3 15 12 0 = none :=
  claim_C4_theorem.2.2.1 24 3 15 12 0 (by decide) (by decide)

/-- Outcome of one Weather Underground day request as seen by
`fetch_pws_day` in `build_pws_observations.py`.  `reqFail` covers a
`requests.RequestException` raised by `requests.get` or
`raise_for_status()` (network error or non-success HTTP status), which the
function catches and logs.  `okBody obs` is a success response body:
`none` when `resp.json()` cannot parse the body, otherwise the parsed
`observations` list with each item reduced to its parsed timestamp
(`none` for an unparseable time value); measurement fields play no role in
this claim and are omitted. -/
inductive PwsResponse
  | reqFail
  | okBody (observations : Option (List (Option Int)))
deriving DecidableEq

/-- The python exception that escapes `fetch_pws_day` when `resp.json()`
fails: that call sits outside the try/except block (line 87 of
`build_pws_observations.py`). -/
inductive PyError
  | jsonDecodeError
deriving DecidableEq

/-- Rows produced from one day's parsed observations (lines 93-118):
build the timestamp column, sort by it (`NaT` last), attach the station
id. -/
def pws_day_rows (station_id : String) (obs : List (Option Int)) : List Row :=
  (List.insertionSort tsLe obs).map (fun t => ⟨station_id, t, ""⟩)

/-- `fetch_pws_day` of `build_pws_observations.py` (lines 56-118) over an
abstract response: transport failures are caught and yield an empty frame
with an error logged; a body `resp.json()` cannot parse raises (the call
is outside the try block); an empty observations list yields an empty
frame with a warning. -/
def build_fetch_pws_day (station_id : String) (resp : PwsResponse) :
    Except PyError (List Row) :=
  match resp with
  | .reqFail => .ok []
  | .okBody none => .error .jsonDecodeError
  | .okBody (some []) => .ok []
  | .okBody (some obs) => .ok (pws_day_rows station_id obs)

/-- `fetch_pws_range` of `build_pws_observations.py` (lines 121-154): loop
over the window's days in order, appending each day's non-empty frame and
concatenating at the end; the loop has no try/except, so an exception from
`fetch_pws_day` propagates and aborts it. -/
def build_fetch_pws_range (station_id : String) (days : List Int)
    (responses : Int → PwsResponse) : Except PyError (List Row) :=
  match days with
  | [] => .ok []
  | d :: ds =>
    match build_fetch_pws_day station_id (responses d) with
    | .error e => .error e
    | .ok rows =>
      match build_fetch_pws_range station_id ds responses with
      | .error e => .error e
      | .ok rest => .ok (rows ++ rest)

/-- The rows one non-raising day outcome contributes: empty for a caught
transport failure or an empty observations list. -/
def pws_day_rows_ok (station_id : String) (resp : PwsResponse) : List Row :=
  match resp with
  | .reqFail => []
  | .okBody none => []
  | .okBody (some obs) => pws_day_rows station_id obs

/-- C3 (corrected) counterexample: the claim says any chunk failure —
including an unparseable body — yields zero rows for that chunk and never
an exception escaping the range fetcher.  But when a day's response body
is unparseable JSON, `resp.json()` raises outside the try block in
`fetch_pws_day`, `fetch_pws_range` has no handler, and the station-level
fetch aborts with the exception instead of returning rows. -/
theorem claim_C3_counterexample :
    build_fetch_pws_range "KORMCMIN127" [0] (fun _ => .okBody none) =
      .error .jsonDecodeError := rfl

/-- C3 (corrected), amended: chunk failures of the caught kinds —
non-success HTTP status, network error, and an empty or observation-free
payload — yield zero rows for that chunk with a log message and the loop
continues, so as long as no day's body is unparseable JSON the range
fetcher returns the concatenation of the per-day rows; an unparseable
body, however, raises out of `fetch_pws_day` and aborts the station-level
fetch. -/
theorem claim_C3_theorem :
    ∀ (station_id : String) (days : List Int) (responses : Int → PwsResponse),
      (∀ d ∈ days, responses d ≠ .okBody none) →
      build_fetch_pws_range station_id days responses =
        .ok ((days.map
          (fun d => pws_day_rows_ok station_id (responses d))).flatten) := by
  intro station_id days responses
  induction days with
  | nil => intro _; rfl
  | cons d ds ih =>
    intro h
    have hd := h d (List.mem_cons_self d ds)
    have hrest := ih (fun x hx => h x (List.mem_cons_of_mem d hx))
    cases hr : responses d with
    | reqFail =>
      simp [build_fetch_pws_range, build_fetch_pws_day, pws_day_rows_ok,
        hr, hrest]
    | okBody obs =>
      cases obs with
      | none => exact absurd hr hd
      | some l =>
        cases l with
        | nil =>
          simp [build_fetch_pws_range, build_fetch_pws_day, pws_day_rows_ok,
            hr, hrest, pws_day_rows]
        | cons o os =>
          simp [build_fetch_pws_range, build_fetch_pws_day, pws_day_rows_ok,
            hr, hrest]

/-- Concrete response assignment for the C3 witness: day 0 suffers a
transport failure, day 1 succeeds with one observation. -/
def c3ExampleResponses : Int → PwsResponse :=
  fun d => if d = 0 then .reqFail else .okBody (some [some 5])

/-- C3 witness: the amended theorem applied to a two-day window whose
first day fails with a caught transport error — the fetch continues and
returns the second day's rows. -/
theorem claim_C3_witness :
    build_fetch_pws_range "KORMCMIN127" [0, 1] c3ExampleResponses =
      .ok (([0, 1].map
        (fun d => pws_day_rows_ok "KORMCMIN127" (c3ExampleResponses d))).flatten) :=
  claim_C3_theorem "KORMCMIN127" [0, 1] c3ExampleResponses (by decide)

/-- An observable event of a range-fetch loop: one provider request for a
given day, or a `time.sleep` for the given number of seconds. -/
inductive FetchEv
  | request (day : Int)
  | sleepFor (seconds : ℚ)
deriving DecidableEq

/-- The module-level tunable delay parameter
`REQUEST_SLEEP_SECONDS = 1.0` of `build_pws_observations.py` ("Seconds to
sleep between each daily API request"). -/
def REQUEST_SLEEP_SECONDS : ℚ := 1

/-- Event trace of `fetch_pws_range` in `build_pws_observations.py`
(lines 121-154): each loop iteration issues the day's request and then
sleeps the configured number of seconds before moving to the next day. -/
def build_pws_range_events (s : ℚ) : List Int → List FetchEv
  | [] => []
  | d :: ds => .request d :: .sleepFor s :: build_pws_range_events s ds

/-- Event trace of `fetch_pws_range` in `fetch_pws_all_data.py` (lines
194-231): each loop iteration issues the day's request (inside try/except)
and moves directly to the next day — the loop body contains no sleep
call. -/
def all_pws_range_events : List Int → List FetchEv
  | [] => []
  | d :: ds => .request d :: all_pws_range_events ds

def isRequest : FetchEv → Bool
  | .request _ => true
  | .sleepFor _ => false

/-- No two adjacent trace events are both requests. -/
def noAdjacentRequests : List FetchEv → Bool
  | e1 :: e2 :: rest =>
    (!(isRequest e1 && isRequest e2)) && noAdjacentRequests (e2 :: rest)
  | _ => true

/-- Every request event is immediately followed by a `sleepFor s` event. -/
def requestThenSleep (s : ℚ) : List FetchEv → Bool
  | [] => true
  | .request _ :: rest =>
    (match rest with
     | .sleepFor s2 :: _ => decide (s2 = s)
     | _ => false) && requestThenSleep s rest
  | .sleepFor _ :: rest => requestThenSleep s rest

/-- C8 (corrected) counterexample: the claim says every range fetcher
enforces a configured minimum delay between successive requests.  The
range fetcher of `fetch_pws_all_data.py` issues its daily requests
back to back: over a two-day window its trace is two adjacent requests
with no sleep between them. -/
theorem claim_C8_counterexample :
    all_pws_range_events [0, 1] = [.request 0, .request 1] ∧
    noAdjacentRequests (all_pws_range_events [0, 1]) = false :=
  ⟨rfl, rfl⟩

/-- C8 (corrected), amended: the range fetcher of
`build_pws_observations.py` sleeps the tunable module parameter
`REQUEST_SLEEP_SECONDS` immediately after every request, for any value of
the parameter and any day window (first conjunct, instantiated at the
configured parameter in the last conjunct); but the range fetcher of
`fetch_pws_all_data.py` emits only requests — no sleep at all — so
consecutive requests there have no delay between them. -/
theorem claim_C8_theorem :
    (∀ (s : ℚ) (days : List Int),
        requestThenSleep s (build_pws_range_events s days) = true) ∧
    (∀ days : List Int, all_pws_range_events days = days.map FetchEv.request) ∧
    requestThenSleep REQUEST_SLEEP_SECONDS
      (build_pws_range_events REQUEST_SLEEP_SECONDS [0, 1]) = true := by
  refine ⟨?_, ?_, by decide⟩
  · intro s days
    induction days with
    | nil => rfl
    | cons d ds ih =>
      simp [build_pws_range_events, requestThenSleep, ih]
  · intro days
    induction days with
    | nil => rfl
    | cons d ds ih => simp [all_pws_range_events, ih]

/-- Full metadata record of the static station registry
(`stations_registry.StationInfo`; the optional `notes` field is absent
from every entry and omitted). -/
structure StationInfo where
  station_id : String
  name : String
  source_type : String
  provider : String
  region : String
deriving DecidableEq

/-- The master station registry of `stations_registry.py`, embedded in
full as an association list mirroring the nested dicts. -/
def STATION_REGISTRY : List (String × List (String × StationInfo)) := [
  ("buoy", [
    ("46050", ⟨"46050", "Stonewall Banks, OR", "buoy", "NDBC", "Oregon Coast"⟩),
    ("46029", ⟨"46029", "Columbia River Bar, OR/WA", "buoy", "NDBC",
      "Oregon/Washington Coast"⟩),
    ("46041", ⟨"46041", "Cape Elizabeth, OR", "buoy", "NDBC", "Oregon Coast"⟩),
    ("46087", ⟨"46087", "Tillamook, OR", "buoy", "NDBC", "Oregon Coast"⟩),
    ("46047", ⟨"46047", "Neah Bay, WA", "buoy", "NDBC", "Washington Coast"⟩),
    ("51001", ⟨"51001", "Northwest Hawaii", "buoy", "NDBC", "Hawaii"⟩)]),
  ("airport", [
    ("KEUG", ⟨"KEUG", "Eugene Airport", "airport", "Mesonet ASOS",
      "Willamette Valley"⟩),
    ("KSLE", ⟨"KSLE", "Salem Airport", "airport", "Mesonet ASOS",
      "Willamette Valley"⟩),
    ("KMMV", ⟨"KMMV", "McMinnville Airport", "airport", "Mesonet ASOS",
      "Willamette Valley"⟩),
    ("KONP", ⟨"KONP", "Newport Airport", "airport", "Mesonet ASOS",
      "Oregon Coast"⟩)]),
  ("pws", [
    ("KORMCMIN133", ⟨"KORMCMIN133", "propdada", "pws", "Weather Underground",
      "McMinnville"⟩),
    ("KORMCMIN127", ⟨"KORMCMIN127", "dustprop", "pws", "Weather Underground",
      "McMinnville"⟩)])]

/-- python `dict.get(key)`: the first binding for the key, if any. -/
def dictGet {α : Type} (m : List (String × α)) (k : String) : Option α :=
  (m.find? (fun p => p.1 == k)).map (fun p => p.2)

/-- `stations_registry.get_station_info(source_type, station_id)`:
`STATION_REGISTRY.get(source_type, {}).get(station_id)` — a two-argument
lookup. -/
def registry_get_station_info (source_type station_id : String) :
    Option StationInfo :=
  dictGet ((dictGet STATION_REGISTRY source_type).getD []) station_id

/-- A row of the external Postgres `stations` table consumed by
`services/stations_service_pg.py` (numeric and timestamp columns are
omitted: they play no role in the claim). -/
structure PgStationRow where
  station_id : String
  station_name : String
  station_type : String
  source_system : String
  active : Bool
deriving DecidableEq

/-- `stations_service_pg.get_station_info(station_id)`:
`SELECT * FROM stations WHERE station_id = %s LIMIT 1`, i.e. the first
table row carrying the given station_id, as one optional record.  The
function takes only `station_id` — it has no source-type parameter. -/
def pg_get_station_info (db : List PgStationRow) (station_id : String) :
    Option PgStationRow :=
  db.find? (fun r => r.station_id == station_id)

/-- Python call of the registry backend's `get_station_info` with
positional arguments; a wrong argument count raises `TypeError`, modeled
as `Except.error ()`. -/
def callRegistryGetStationInfo (args : List String) :
    Except Unit (Option StationInfo) :=
  match args with
  | [source_type, station_id] =>
    .ok (registry_get_station_info source_type station_id)
  | _ => .error ()

/-- Python call of the Postgres backend's `get_station_info` with
positional arguments; its signature accepts exactly one argument. -/
def callPgGetStationInfo (db : List PgStationRow) (args : List String) :
    Except Unit (Option PgStationRow) :=
  match args with
  | [station_id] => .ok (pg_get_station_info db station_id)
  | _ => .error ()

/-- C7 (code_bug): the two station-directory backends are not
capability-equivalent behind one interface.  Call sites
(`fetch_airport_mesonet_data.get_airport_name`,
`fetch_pws_all_data.get_pws_info`) invoke
`get_station_info(source_type, station_id)` with two arguments; the
registry backend accepts that call and returns the record, but the
Postgres backend's `get_station_info` takes only `(station_id)`, so the
very same call raises `TypeError` for every database state and every
station id. -/
theorem claim_C7_theorem :
    ∀ (db : List PgStationRow) (station_id : String),
      callPgGetStationInfo db ["airport", station_id] = .error () ∧
      callRegistryGetStationInfo ["airport", "KEUG"] =
        .ok (some ⟨"KEUG", "Eugene Airport", "airport", "Mesonet ASOS",
          "Willamette Valley"⟩) :=
  fun _ _ => ⟨rfl, rfl⟩
